import Mathlib

/-!
Verification of the social-cat workflow engine against its specification.

The definitions below are shallow embeddings of the TypeScript sources:
the cron `Scheduler` class, the static workflow validator
(`scripts/validate-workflow.ts`), the workflow execution queue
(`queueWorkflowExecution`, `getWorkflowQueueStats`, the worker processor),
the OpenAI capability module (`src/modules/ai/openai.ts`), and — where the
implementation lives outside the provided sources — models built from the
specification text (each such definition is marked `Modelled from the spec:`).
-/

/-! ## Scheduler (node-cron based `Scheduler` class)

The scheduler keeps a `Map<string, ScheduledTask>` of named cron tasks plus
an `isInitialized` flag (called `isStarted` here).  A `CronTask` models a
node-cron `ScheduledTask`: it carries the creation counter `taskId` (so
that replacing a task is observable), the cron expression it was created
with, and whether it is currently running (a task fires only while
`running = true`). -/

structure CronTask where
  taskId : Nat
  schedule : String
  running : Bool
deriving DecidableEq, Repr

structure ScheduledJob where
  name : String
  schedule : String
  enabled : Option Bool
deriving DecidableEq, Repr

/-- Count the maximal runs of non-space characters (the field count of a
cron expression string).  The Boolean argument records whether the scan is
currently inside a field. -/
def countFieldsAux : List Char → Bool → Nat
  | [], _ => 0
  | c :: rest, inWord =>
      if c = ' ' then countFieldsAux rest false
      else (if inWord then 0 else 1) + countFieldsAux rest true

/-- Modelled from the spec: node-cron `cron.validate` is a library function
not under src.  Spec section 6: "standard 5-field cron expression string;
invalid expressions are rejected at registration".  We model validity as
having 5 (or, with the optional seconds field, 6) whitespace-separated
fields, which is what distinguishes the spec scenario input. -/
def cronValidate (s : String) : Bool :=
  let fieldCount := countFieldsAux s.toList false
  fieldCount = 5 || fieldCount = 6

/-- JS `Map.get`: first binding wins. -/
def mapGet (m : List (String × CronTask)) (k : String) : Option CronTask :=
  match m with
  | [] => none
  | (k1, v) :: rest => if k1 = k then some v else mapGet rest k

/-- JS `Map.has`. -/
def mapHas (m : List (String × CronTask)) (k : String) : Bool :=
  (mapGet m k).isSome

/-- JS `Map.set`: update an existing binding in place, else append. -/
def mapSet (m : List (String × CronTask)) (k : String) (v : CronTask) :
    List (String × CronTask) :=
  match m with
  | [] => [(k, v)]
  | (k1, v1) :: rest => if k1 = k then (k, v) :: rest else (k1, v1) :: mapSet rest k v

/-- JS `Map.delete`. -/
def mapDelete (m : List (String × CronTask)) (k : String) : List (String × CronTask) :=
  match m with
  | [] => []
  | (k1, v1) :: rest => if k1 = k then mapDelete rest k else (k1, v1) :: mapDelete rest k

/-- The `Scheduler` singleton state: `jobs` map, `isInitialized` flag
(called `isStarted` here), and a counter issuing ids to newly created
tasks. -/
structure SchedulerState where
  jobs : List (String × CronTask)
  isStarted : Bool
  nextTaskId : Nat
deriving DecidableEq, Repr

/-- `Scheduler.register`: skip duplicates, skip disabled jobs, reject
invalid cron expressions; otherwise create the task (`cron.schedule`
returns a started task), immediately stop it, and store it. -/
def Scheduler.register (job : ScheduledJob) (s : SchedulerState) : SchedulerState :=
  if mapHas s.jobs job.name = true then s
  else if job.enabled = some false then s
  else if cronValidate job.schedule = false then s
  else
    let created : CronTask :=
      { taskId := s.nextTaskId, schedule := job.schedule, running := true }
    let stored : CronTask := { created with running := false }
    { s with jobs := mapSet s.jobs job.name stored, nextTaskId := s.nextTaskId + 1 }

/-- `Scheduler.start`: no-op if already started, else start every task. -/
def Scheduler.start (s : SchedulerState) : SchedulerState :=
  if s.isStarted = true then s
  else
    { s with
      jobs := s.jobs.map (fun kv => (kv.1, { kv.2 with running := true }))
      isStarted := true }

/-- `Scheduler.stop`: stop every task and clear the flag. -/
def Scheduler.stop (s : SchedulerState) : SchedulerState :=
  { s with
    jobs := s.jobs.map (fun kv => (kv.1, { kv.2 with running := false }))
    isStarted := false }

/-- `Scheduler.unregister`: stop and remove a job if present. -/
def Scheduler.unregister (jobName : String) (s : SchedulerState) : SchedulerState :=
  match mapGet s.jobs jobName with
  | none => s
  | some _ => { s with jobs := mapDelete s.jobs jobName }

/-- `Scheduler.startJob`: start one job if present; returns the JS boolean. -/
def Scheduler.startJob (jobName : String) (s : SchedulerState) : SchedulerState × Bool :=
  match mapGet s.jobs jobName with
  | none => (s, false)
  | some t =>
      ({ s with jobs := mapSet s.jobs jobName { t with running := true } }, true)

/-- `Scheduler.stopJob`. -/
def Scheduler.stopJob (jobName : String) (s : SchedulerState) : SchedulerState × Bool :=
  match mapGet s.jobs jobName with
  | none => (s, false)
  | some t =>
      ({ s with jobs := mapSet s.jobs jobName { t with running := false } }, true)

/-- `Scheduler.registerOrUpdate`: unregister an existing binding, register
the new job, and — whenever the job is not disabled — start it and mark the
scheduler started. -/
def Scheduler.registerOrUpdate (job : ScheduledJob) (s : SchedulerState) : SchedulerState :=
  let s1 := if mapHas s.jobs job.name = true then Scheduler.unregister job.name s else s
  let s2 := Scheduler.register job s1
  if job.enabled = some false then s2
  else
    let s3 := (Scheduler.startJob job.name s2).1
    if s3.isStarted = true then s3 else { s3 with isStarted := true }

/-- The initial state of the `scheduler` singleton. -/
def schedulerEmpty : SchedulerState :=
  { jobs := [], isStarted := false, nextTaskId := 0 }

/-! ## Static workflow validator (`scripts/validate-workflow.ts`)

`validateVariableReferences` walks the steps in document order keeping the
set of declared output names.  The source extracts, from the JSON
serialization of each step's inputs, the regex-matched interpolation
tokens and takes each token's leading word as the referenced root name;
`refs` holds exactly those extracted root names. -/

structure VStep where
  id : String
  refs : List String
  outputAs : Option String
deriving DecidableEq, Repr

/-- The error string pushed by the source for an undeclared reference
(`index` is already the 1-based step number). -/
def undeclaredVariableError (index : Nat) (stepId varName : String) : String :=
  "Step " ++ toString index ++ " (" ++ stepId ++ "): References undeclared variable \""
    ++ varName ++ "\""

/-- The `forEach` loop of `validateVariableReferences`: flag every
reference whose root is not yet declared and is not the literal name
`user`, then add this step's `outputAs` to the declared set. -/
def validateVariableReferencesAux (declared : List String) (index : Nat) :
    List VStep → List String
  | [] => []
  | step :: rest =>
      let errs := (step.refs.filter
          (fun v => !(declared.contains v) && v != "user")).map
        (fun v => undeclaredVariableError (index + 1) step.id v)
      let declared2 := match step.outputAs with
        | some o => declared ++ [o]
        | none => declared
      errs ++ validateVariableReferencesAux declared2 (index + 1) rest

def validateVariableReferences (steps : List VStep) : List String :=
  validateVariableReferencesAux [] 0 steps

/-- Spec-side helper: the output names bound by the steps strictly before
position `i` in document order. -/
def boundBefore (steps : List VStep) (i : Nat) : List String :=
  (steps.take i).filterMap (fun st => st.outputAs)

/-! ## Workflow execution queue (`queueWorkflowExecution`,
`getWorkflowQueueStats`, the worker processor) -/

/-- The retry-relevant slice of the `defaultJobOptions` passed to
`createQueue(WORKFLOW_QUEUE_NAME, ...)`: `attempts: 3` and exponential
backoff with `delay: 10000`. -/
structure JobRetryOptions where
  attempts : Nat
  backoffDelayMs : Nat
deriving DecidableEq, Repr

def workflowQueueJobOptions : JobRetryOptions :=
  { attempts := 3, backoffDelayMs := 10000 }

/-- Outcome of processing one queued job to completion of its retry
budget. -/
structure JobRun where
  succeeded : Bool
  attemptsMade : Nat
  retryDelaysMs : List Nat
deriving DecidableEq, Repr

/-- Modelled from the spec: the queue library (the BullMQ wrapper
`createQueue`/`createWorker` in lib/queue, not under src) retries a failed
job while attempts remain; spec section 4.5: "retried up to 3 attempts
total with exponential backoff (base delay, doubling per attempt)", so the
k-th retry is delayed `baseDelay * 2 ^ (k - 1)` ms.  `outcome n` tells
whether the n-th attempt succeeds; `attempt` is the 1-based attempt number
and `remaining` the attempts still allowed. -/
def runQueueJobAux (baseDelay : Nat) (outcome : Nat → Bool) :
    Nat → Nat → JobRun
  | attempt, 0 => { succeeded := false, attemptsMade := attempt - 1, retryDelaysMs := [] }
  | attempt, remaining + 1 =>
      if outcome attempt then
        { succeeded := true, attemptsMade := attempt, retryDelaysMs := [] }
      else if remaining = 0 then
        { succeeded := false, attemptsMade := attempt, retryDelaysMs := [] }
      else
        let rest := runQueueJobAux baseDelay outcome (attempt + 1) remaining
        { rest with retryDelaysMs := baseDelay * 2 ^ (attempt - 1) :: rest.retryDelaysMs }

def runQueueJob (opts : JobRetryOptions) (outcome : Nat → Bool) : JobRun :=
  runQueueJobAux opts.backoffDelayMs outcome 1 opts.attempts

/-- Observable dispatch actions of `queueWorkflowExecution`. -/
inductive DispatchEv where
  | directExecute
  | enqueueJob
deriving DecidableEq, Repr

structure QueueSubmitResult where
  jobId : String
  queued : Bool
deriving DecidableEq, Repr

/-- `queueWorkflowExecution`: without `REDIS_URL` it runs the workflow
directly, exactly once, and reports `queued: false`; with Redis but no
initialized queue it throws; otherwise it enqueues one job whose id is the
one BullMQ assigned (`job.id || 'unknown'`). -/
def queueWorkflowExecution (redisConfigured : Bool) (queueRegistered : Bool)
    (assignedJobId : Option String) :
    List DispatchEv × Except String QueueSubmitResult :=
  if redisConfigured = false then
    ([DispatchEv.directExecute],
     Except.ok { jobId := "direct-execution", queued := false })
  else if queueRegistered = false then
    ([], Except.error ("Workflow queue not initialized. Call initializeWorkflowQueue() first."))
  else
    ([DispatchEv.enqueueJob],
     Except.ok { jobId := assignedJobId.getD ("unknown"), queued := true })

/-- The five lifecycle counters reported by `getWorkflowQueueStats`. -/
structure QueueStats where
  waiting : Nat
  active : Nat
  completed : Nat
  failed : Nat
  delayed : Nat
  total : Nat
deriving DecidableEq, Repr

/-- `getWorkflowQueueStats`, parameterized by the five counts read from the
queue; returns `none` when the queue was never created. -/
def getWorkflowQueueStats (queueFound : Bool)
    (waiting active completed failed delayed : Nat) : Option QueueStats :=
  if queueFound = true then
    some { waiting := waiting, active := active, completed := completed,
           failed := failed, delayed := delayed,
           total := waiting + active + delayed }
  else none

/-- The result shape the worker receives from `executeWorkflow`
(`success`, optional `error`, optional `errorStep`). -/
structure WorkflowExecResult where
  success : Bool
  error : Option String
  errorStep : Option String
deriving DecidableEq, Repr

/-- JS template-literal interpolation of a possibly-undefined string. -/
def jsInterp : Option String → String
  | some s => s
  | none => "undefined"

/-- The message of the error thrown by the worker processor when
`executeWorkflow` reports failure:
`Workflow execution failed: <error> <(step: <errorStep>)?>`, the step
suffix present only when `errorStep` is truthy. -/
def workerFailureMessage (r : WorkflowExecResult) : String :=
  "Workflow execution failed: " ++ jsInterp r.error ++ " " ++
    (match r.errorStep with
     | some s => if s = "" then "" else "(step: " ++ s ++ ")"
     | none => "")

/-- Whether `needle` occurs as a contiguous substring of `hay`. -/
def containsSub (needle : List Char) (hay : List Char) : Bool :=
  match hay with
  | [] => needle.isEmpty
  | _ :: rest => needle.isPrefixOf hay || containsSub needle rest

/-- Whether a failure message mentions a failing step id. -/
def mentionsStepId (msg : String) : Bool :=
  containsSub ("(step: ".toList) msg.toList

/-! ## OpenAI capability module (`src/modules/ai/openai.ts`)

Calls are modelled by the ordered trace of policy events around the
network request. -/

inductive CallEv where
  | rateLimitAcquire
  | breakerCheck
  | timeoutGuard
  | networkCall
deriving DecidableEq, Repr

/-- `createCompletionInternal`: one unprotected network call. -/
def createCompletionInternalTrace : List CallEv := [CallEv.networkCall]

/-- Modelled from the spec: `createCircuitBreaker(...).fire` (lib/resilience,
not under src); spec sections 4.4 and 7: when the circuit is open it fails
fast without attempting the call, otherwise it guards the wrapped call with
the configured per-call timeout. -/
def circuitBreakerFire (circuitOpen : Bool) (inner : List CallEv) : List CallEv :=
  if circuitOpen then [CallEv.breakerCheck]
  else CallEv.breakerCheck :: CallEv.timeoutGuard :: inner

/-- Modelled from the spec: `withRateLimit` (lib/rate-limiter, not under
src); spec section 4.4: the rate limiter may delay the call to respect a
rolling quota, then runs it. -/
def withRateLimitTrace (inner : List CallEv) : List CallEv :=
  CallEv.rateLimitAcquire :: inner

/-- `createCompletion` = `withRateLimit(createCompletionWithBreaker.fire)`
where the breaker (with its timeout option) wraps
`createCompletionInternal`. -/
def createCompletionTrace (circuitOpen : Bool) : List CallEv :=
  withRateLimitTrace (circuitBreakerFire circuitOpen createCompletionInternalTrace)

/-- `generateText`: builds a client and calls
`client.chat.completions.create` directly — no rate limiter, breaker or
timeout policy around it. -/
def generateTextTrace : List CallEv := [CallEv.networkCall]

/-! ## Parameter alias normalization (auto-fixer)

Modelled from the spec: the auto-fixer implementation is not under src
(only its battle-test report is).  Spec section 4.1: resolution consults "a
parameter-alias table mapping deprecated parameter names to canonical
ones", and "alias application is conservative: if the caller already
supplied the canonical parameter name, no rename is applied — a renamed
duplicate plus a placeholder value must never be emitted". -/

/-- Normalize one step's input mapping: a key that is already canonical is
kept; a deprecated key is renamed to its canonical name (keeping its
value) unless the canonical key is already supplied; unknown keys are kept.
Exactly one output entry is produced per input entry, so no duplicate or
placeholder is ever emitted. -/
def normalizeStepParams (canonicalParams : List String)
    (paramAliases : List (String × String))
    (inputs : List (String × String)) : List (String × String) :=
  inputs.map (fun kv =>
    if canonicalParams.contains kv.1 then kv
    else
      match paramAliases.lookup kv.1 with
      | some canon =>
          if (inputs.map Prod.fst).contains canon then kv else (canon, kv.2)
      | none => kv)

/-! ### Assoc-list lemmas -/

theorem mapGet_mapSet_self (m : List (String × CronTask)) (k : String) (v : CronTask) :
    mapGet (mapSet m k v) k = some v := by
  induction m with
  | nil => simp [mapSet, mapGet]
  | cons hd tl ih =>
      obtain ⟨k1, v1⟩ := hd
      by_cases h : k1 = k
      · simp [mapSet, mapGet, h]
      · simp [mapSet, mapGet, h, ih]

theorem mapGet_mapSet_ne (m : List (String × CronTask)) (k k2 : String) (v : CronTask)
    (h : k2 ≠ k) : mapGet (mapSet m k v) k2 = mapGet m k2 := by
  induction m with
  | nil => simp [mapSet, mapGet, h.symm]
  | cons hd tl ih =>
      obtain ⟨k1, v1⟩ := hd
      by_cases h1 : k1 = k
      · subst h1
        simp [mapSet, mapGet, h.symm]
      · simp [mapSet, mapGet, h1, ih]

theorem mapGet_mapDelete_self (m : List (String × CronTask)) (k : String) :
    mapGet (mapDelete m k) k = none := by
  induction m with
  | nil => simp [mapDelete, mapGet]
  | cons hd tl ih =>
      obtain ⟨k1, v1⟩ := hd
      by_cases h : k1 = k
      · simp [mapDelete, h, ih]
      · simp [mapDelete, mapGet, h, ih]

theorem mapGet_mapDelete_ne (m : List (String × CronTask)) (k k2 : String)
    (h : k2 ≠ k) : mapGet (mapDelete m k) k2 = mapGet m k2 := by
  induction m with
  | nil => simp [mapDelete]
  | cons hd tl ih =>
      obtain ⟨k1, v1⟩ := hd
      by_cases h1 : k1 = k
      · subst h1
        simp [mapDelete, mapGet, h.symm, ih]
      · simp [mapDelete, mapGet, h1, ih]

/-! ### Scheduler step lemmas -/

theorem register_success (job : ScheduledJob) (s : SchedulerState)
    (hHas : mapHas s.jobs job.name = false)
    (h2 : job.enabled ≠ some false)
    (h3 : cronValidate job.schedule = true) :
    Scheduler.register job s =
      { s with
        jobs := mapSet s.jobs job.name
          { taskId := s.nextTaskId, schedule := job.schedule, running := false }
        nextTaskId := s.nextTaskId + 1 } := by
  unfold Scheduler.register
  simp [hHas, h2, h3]

theorem unregister_found (jobName : String) (s : SchedulerState) (t : CronTask)
    (ht : mapGet s.jobs jobName = some t) :
    Scheduler.unregister jobName s = { s with jobs := mapDelete s.jobs jobName } := by
  unfold Scheduler.unregister
  rw [ht]

theorem startJob_found (jobName : String) (s : SchedulerState) (t : CronTask)
    (ht : mapGet s.jobs jobName = some t) :
    Scheduler.startJob jobName s =
      ({ s with jobs := mapSet s.jobs jobName { t with running := true } }, true) := by
  unfold Scheduler.startJob
  rw [ht]

/-- Claim C4: `Scheduler.register` with an invalid cron expression or an
already-registered name returns without modifying the scheduler state: no
entry is added, none is modified or restarted, and (the function being
total) nothing is thrown. -/
theorem scheduler_register_invalid_or_duplicate_noop
    (job : ScheduledJob) (s : SchedulerState)
    (h : cronValidate job.schedule = false ∨ mapHas s.jobs job.name = true) :
    Scheduler.register job s = s := by
  by_cases h1 : mapHas s.jobs job.name = true
  · simp [Scheduler.register, h1]
  · by_cases h2 : job.enabled = some false
    · simp [Scheduler.register, h1, h2]
    · rcases h with h | h
      · simp [Scheduler.register, h1, h2, h]
      · exact absurd h h1

/-- Claim C4 witness: the spec scenario input, the 3-field expression. -/
theorem scheduler_register_invalid_or_duplicate_noop_witness :
    cronValidate ("* * *") = false ∧
      Scheduler.register { name := "my-job", schedule := "* * *", enabled := none }
        schedulerEmpty = schedulerEmpty :=
  ⟨by decide,
   scheduler_register_invalid_or_duplicate_noop _ _ (Or.inl (by decide))⟩

/-- Claim C10: `Scheduler.register` never starts the job it registers: the stored
task is stopped (`running = false`) even when the scheduler was already
started, the started flag is untouched, and every other registration is
left as it was.  (In this model a task fires only while `running = true`,
so the job cannot fire until `start`, `startJob` or `registerOrUpdate` runs
it.) -/
theorem scheduler_register_never_starts_task
    (job : ScheduledJob) (s : SchedulerState)
    (hHas : mapHas s.jobs job.name = false)
    (h2 : job.enabled ≠ some false)
    (h3 : cronValidate job.schedule = true) :
    mapGet (Scheduler.register job s).jobs job.name
        = some { taskId := s.nextTaskId, schedule := job.schedule, running := false }
      ∧ (Scheduler.register job s).isStarted = s.isStarted
      ∧ ∀ k, k ≠ job.name →
          mapGet (Scheduler.register job s).jobs k = mapGet s.jobs k := by
  rw [register_success job s hHas h2 h3]
  refine ⟨mapGet_mapSet_self _ _ _, rfl, ?_⟩
  intro k hk
  exact mapGet_mapSet_ne _ _ _ _ hk

/-- Claim C10 witness: registering into an already-started scheduler still stores
a stopped task. -/
theorem scheduler_register_never_starts_task_witness :
    mapGet (Scheduler.register { name := "daily", schedule := "0 0 * * *", enabled := none }
        { jobs := [], isStarted := true, nextTaskId := 7 }).jobs ("daily")
      = some { taskId := 7, schedule := "0 0 * * *", running := false } ∧
    (Scheduler.register { name := "daily", schedule := "0 0 * * *", enabled := none }
        { jobs := [], isStarted := true, nextTaskId := 7 }).isStarted = true := by
  have h := scheduler_register_never_starts_task
    { name := "daily", schedule := "0 0 * * *", enabled := none }
    { jobs := [], isStarted := true, nextTaskId := 7 }
    (by decide) (by decide) (by decide)
  exact ⟨h.1, h.2.1⟩

/-- Claim C5 counterexample: `registerOrUpdate` with an invalid cron expression
(`"* * *"`) on an already-registered name removes the old registration and
adds nothing: the name is lost, so the claimed unconditional atomic
replacement is false. -/
theorem registerOrUpdate_invalid_cron_loses_registration :
    mapHas (Scheduler.register { name := "a", schedule := "*/5 * * * *", enabled := none }
        schedulerEmpty).jobs ("a") = true
    ∧ mapHas (Scheduler.registerOrUpdate { name := "a", schedule := "* * *", enabled := none }
        (Scheduler.register { name := "a", schedule := "*/5 * * * *", enabled := none }
          schedulerEmpty)).jobs ("a") = false := by
  constructor
  · decide
  · decide

/-- Claim C5 (amended): when the new job's cron expression is valid and the job
is not disabled, `registerOrUpdate` replaces any registration of that name
with a freshly created task carrying the new schedule, started, leaves all
other registrations untouched, and marks the scheduler started. -/
theorem registerOrUpdate_valid_replaces_and_starts
    (job : ScheduledJob) (s : SchedulerState)
    (h2 : job.enabled ≠ some false)
    (h3 : cronValidate job.schedule = true) :
    mapGet (Scheduler.registerOrUpdate job s).jobs job.name
        = some { taskId := s.nextTaskId, schedule := job.schedule, running := true }
      ∧ (Scheduler.registerOrUpdate job s).isStarted = true
      ∧ ∀ k, k ≠ job.name →
          mapGet (Scheduler.registerOrUpdate job s).jobs k = mapGet s.jobs k := by
  simp only [Scheduler.registerOrUpdate]
  by_cases hHas : mapHas s.jobs job.name = true
  · obtain ⟨t0, ht0⟩ := Option.isSome_iff_exists.mp (by simpa [mapHas] using hHas)
    rw [if_pos hHas, unregister_found job.name s t0 ht0]
    set sDel : SchedulerState := { s with jobs := mapDelete s.jobs job.name } with hsDel
    have hHasDel : mapHas sDel.jobs job.name = false := by
      simp [hsDel, mapHas, mapGet_mapDelete_self]
    rw [register_success job sDel hHasDel h2 h3]
    set task0 : CronTask :=
      { taskId := s.nextTaskId, schedule := job.schedule, running := false } with htask0
    set s2 : SchedulerState :=
      { sDel with jobs := mapSet sDel.jobs job.name task0
                  nextTaskId := sDel.nextTaskId + 1 } with hs2
    rw [if_neg h2, startJob_found job.name s2 task0 (mapGet_mapSet_self _ _ _)]
    have hjobs : ∀ st : SchedulerState,
        st.jobs = mapSet s2.jobs job.name { task0 with running := true } →
        mapGet st.jobs job.name
            = some { taskId := s.nextTaskId, schedule := job.schedule, running := true }
          ∧ ∀ k, k ≠ job.name → mapGet st.jobs k = mapGet s.jobs k := by
      intro st hst
      constructor
      · rw [hst]
        exact mapGet_mapSet_self _ _ _
      · intro k hk
        rw [hst, mapGet_mapSet_ne _ _ _ _ hk, hs2]
        show mapGet (mapSet sDel.jobs job.name task0) k = mapGet s.jobs k
        rw [mapGet_mapSet_ne _ _ _ _ hk, hsDel]
        exact mapGet_mapDelete_ne _ _ _ hk
    by_cases hSt : s.isStarted = true
    · rw [if_pos (by simpa [hs2, hsDel] using hSt)]
      refine ⟨(hjobs _ rfl).1, by simpa [hs2, hsDel] using hSt, (hjobs _ rfl).2⟩
    · rw [if_neg (by simpa [hs2, hsDel] using hSt)]
      exact ⟨(hjobs _ rfl).1, rfl, (hjobs _ rfl).2⟩
  · have hHasF : mapHas s.jobs job.name = false := by
      simpa using hHas
    rw [if_neg hHas, register_success job s hHasF h2 h3]
    set task0 : CronTask :=
      { taskId := s.nextTaskId, schedule := job.schedule, running := false } with htask0
    set s2 : SchedulerState :=
      { s with jobs := mapSet s.jobs job.name task0
               nextTaskId := s.nextTaskId + 1 } with hs2
    rw [if_neg h2, startJob_found job.name s2 task0 (mapGet_mapSet_self _ _ _)]
    have hjobs : ∀ st : SchedulerState,
        st.jobs = mapSet s2.jobs job.name { task0 with running := true } →
        mapGet st.jobs job.name
            = some { taskId := s.nextTaskId, schedule := job.schedule, running := true }
          ∧ ∀ k, k ≠ job.name → mapGet st.jobs k = mapGet s.jobs k := by
      intro st hst
      constructor
      · rw [hst]
        exact mapGet_mapSet_self _ _ _
      · intro k hk
        rw [hst, mapGet_mapSet_ne _ _ _ _ hk, hs2]
        show mapGet (mapSet s.jobs job.name task0) k = mapGet s.jobs k
        exact mapGet_mapSet_ne _ _ _ _ hk
    by_cases hSt : s.isStarted = true
    · rw [if_pos (by simpa [hs2] using hSt)]
      refine ⟨(hjobs _ rfl).1, by simpa [hs2] using hSt, (hjobs _ rfl).2⟩
    · rw [if_neg (by simpa [hs2] using hSt)]
      exact ⟨(hjobs _ rfl).1, rfl, (hjobs _ rfl).2⟩

/-- Claim C5 witness: dynamically registering a fresh valid job on a never-started
scheduler stores a running task and marks the scheduler started. -/
theorem registerOrUpdate_valid_replaces_and_starts_witness :
    mapGet (Scheduler.registerOrUpdate
        { name := "dyn", schedule := "0 9 * * 1", enabled := none } schedulerEmpty).jobs ("dyn")
      = some { taskId := 0, schedule := "0 9 * * 1", running := true } ∧
    (Scheduler.registerOrUpdate
        { name := "dyn", schedule := "0 9 * * 1", enabled := none } schedulerEmpty).isStarted
      = true := by
  have h := registerOrUpdate_valid_replaces_and_starts
    { name := "dyn", schedule := "0 9 * * 1", enabled := none } schedulerEmpty
    (by decide) (by decide)
  exact ⟨h.1, h.2.1⟩

/-- Claim C2: with the queue's configured job options (3 attempts, exponential
backoff from 10000 ms), a job failing on attempts 1 and 2 and succeeding on
attempt 3 ends successful after exactly 3 attempts with retry delays 10 s
then 20 s; a job failing all 3 attempts is marked failed after exactly 3
attempts and receives no further retry. -/
theorem workflow_job_retry_semantics (f g : Nat → Bool)
    (hf1 : f 1 = false) (hf2 : f 2 = false) (hf3 : f 3 = true)
    (hg1 : g 1 = false) (hg2 : g 2 = false) (hg3 : g 3 = false) :
    runQueueJob workflowQueueJobOptions f =
        { succeeded := true, attemptsMade := 3, retryDelaysMs := [10000, 20000] }
      ∧ runQueueJob workflowQueueJobOptions g =
        { succeeded := false, attemptsMade := 3, retryDelaysMs := [10000, 20000] } := by
  constructor
  · show runQueueJobAux 10000 f 1 3 = _
    have e3 : runQueueJobAux 10000 f 3 1 =
        { succeeded := true, attemptsMade := 3, retryDelaysMs := [] } := by
      show runQueueJobAux 10000 f 3 (0 + 1) = _
      rw [runQueueJobAux, hf3]
      simp
    have e2 : runQueueJobAux 10000 f 2 2 =
        { succeeded := true, attemptsMade := 3, retryDelaysMs := [20000] } := by
      show runQueueJobAux 10000 f 2 (1 + 1) = _
      rw [runQueueJobAux, hf2]
      simp [e3]
    show runQueueJobAux 10000 f 1 (2 + 1) = _
    rw [runQueueJobAux, hf1]
    simp [e2]
  · show runQueueJobAux 10000 g 1 3 = _
    have e3 : runQueueJobAux 10000 g 3 1 =
        { succeeded := false, attemptsMade := 3, retryDelaysMs := [] } := by
      show runQueueJobAux 10000 g 3 (0 + 1) = _
      rw [runQueueJobAux, hg3]
      simp
    have e2 : runQueueJobAux 10000 g 2 2 =
        { succeeded := false, attemptsMade := 3, retryDelaysMs := [20000] } := by
      show runQueueJobAux 10000 g 2 (1 + 1) = _
      rw [runQueueJobAux, hg2]
      simp [e3]
    show runQueueJobAux 10000 g 1 (2 + 1) = _
    rw [runQueueJobAux, hg1]
    simp [e2]

/-- Claim C2 witness: concrete outcome functions. -/
theorem workflow_job_retry_semantics_witness :
    runQueueJob workflowQueueJobOptions (fun n => n == 3) =
        { succeeded := true, attemptsMade := 3, retryDelaysMs := [10000, 20000] }
      ∧ runQueueJob workflowQueueJobOptions (fun _ => false) =
        { succeeded := false, attemptsMade := 3, retryDelaysMs := [10000, 20000] } :=
  workflow_job_retry_semantics (fun n => n == 3) (fun _ => false)
    rfl rfl rfl rfl rfl rfl

/-- Claim C6: with no Redis configured, `queueWorkflowExecution` falls back to
exactly one direct synchronous execution (a single `directExecute` action,
no enqueue and hence no queue retry or concurrency ceiling) and returns
`queued := false` with the fixed job identifier, never an error. -/
theorem queueWorkflowExecution_no_redis_direct
    (queueRegistered : Bool) (assignedJobId : Option String) :
    queueWorkflowExecution false queueRegistered assignedJobId =
      ([DispatchEv.directExecute],
       Except.ok { jobId := "direct-execution", queued := false }) := rfl

/-- Claim C9: `getWorkflowQueueStats` reports the five counts and a total equal
to waiting + active + delayed; the total is unchanged by the completed and
failed counts. -/
theorem getWorkflowQueueStats_total_excludes_finished
    (w a c f d : Nat) :
    getWorkflowQueueStats true w a c f d =
        some { waiting := w, active := a, completed := c, failed := f, delayed := d,
               total := w + a + d }
      ∧ ∀ c2 f2, (getWorkflowQueueStats true w a c2 f2 d).map QueueStats.total
          = some (w + a + d) := by
  constructor
  · rfl
  · intro c2 f2
    rfl

/-- Claim C7 counterexample: a failing execution whose result carries no
`errorStep` (e.g. a workflow-level failure) is surfaced by the worker with
the underlying error but with no failing step id, so the claim that the
surfaced failure always contains the step id is false. -/
theorem worker_failure_message_missing_step_id :
    workerFailureMessage
        { success := false, error := some ("Workflow not found"), errorStep := none }
      = "Workflow execution failed: Workflow not found "
      ∧ mentionsStepId ("Workflow execution failed: Workflow not found ") = false := by
  constructor
  · rfl
  · decide

/-- Claim C7 (amended): the worker failure message always embeds the underlying
error text, and it embeds the failing step id exactly when the executor
reports one; here the positive direction: a reported non-empty `errorStep`
appears in the message after the error text. -/
theorem workerFailureMessage_reports_error_and_step
    (r : WorkflowExecResult) (s : String)
    (hstep : r.errorStep = some s) (hne : s ≠ "") :
    workerFailureMessage r =
      "Workflow execution failed: " ++ jsInterp r.error ++ " " ++
        ("(step: " ++ s ++ ")") := by
  unfold workerFailureMessage
  rw [hstep]
  simp [hne]

/-- Claim C7 witness. -/
theorem workerFailureMessage_reports_error_and_step_witness :
    workerFailureMessage
        { success := false, error := some ("boom"), errorStep := some ("step-2") }
      = "Workflow execution failed: boom (step: step-2)" := by
  have h := workerFailureMessage_reports_error_and_step
    { success := false, error := some ("boom"), errorStep := some ("step-2") } ("step-2")
    rfl (by decide)
  exact h.trans (by decide)

/-- Claim C8 counterexample: `generateText` performs the external network call
with no rate-limiter acquisition and no circuit-breaker check around it,
so the claim that every external-I/O capability invocation is wrapped by
the three policies is false. -/
theorem generateText_unwrapped_network_call :
    CallEv.networkCall ∈ generateTextTrace
      ∧ CallEv.rateLimitAcquire ∉ generateTextTrace
      ∧ CallEv.breakerCheck ∉ generateTextTrace := by decide

/-- Claim C8 (amended): the chat-completion invocation path
(`createCompletion`) is composed rate limiter outermost, then circuit
breaker, then the per-call timeout innermost around the network call; with
the circuit open it fails fast after the breaker check without reaching
the timeout guard or the network. -/
theorem createCompletion_policy_order :
    createCompletionTrace false =
        [CallEv.rateLimitAcquire, CallEv.breakerCheck, CallEv.timeoutGuard,
         CallEv.networkCall]
      ∧ createCompletionTrace true = [CallEv.rateLimitAcquire, CallEv.breakerCheck] := by
  constructor
  · rfl
  · rfl

/-- Claim C1: the alias-normalization pass is a no-op on a step whose input
mapping already uses only canonical parameter names — no key is renamed —
and on any input it emits exactly one entry per supplied entry, so it never
emits a renamed duplicate key plus a placeholder for the same logical
input. -/
theorem normalizeStepParams_canonical_noop
    (canonicalParams : List String) (paramAliases : List (String × String))
    (inputs : List (String × String))
    (h : ∀ k ∈ inputs.map Prod.fst, canonicalParams.contains k = true) :
    normalizeStepParams canonicalParams paramAliases inputs = inputs
      ∧ ∀ inputs2 : List (String × String),
          (normalizeStepParams canonicalParams paramAliases inputs2).length
            = inputs2.length := by
  constructor
  · unfold normalizeStepParams
    have hf : ∀ kv ∈ inputs,
        (fun kv : String × String =>
          if canonicalParams.contains kv.1 then kv
          else
            match paramAliases.lookup kv.1 with
            | some canon =>
                if (inputs.map Prod.fst).contains canon then kv else (canon, kv.2)
            | none => kv) kv = kv := by
      intro kv hkv
      have hk := h kv.1 (List.mem_map_of_mem Prod.fst hkv)
      simp only [hk, if_true]
    calc inputs.map _ = inputs.map id := List.map_congr_left hf
      _ = inputs := List.map_id inputs
  · intro inputs2
    unfold normalizeStepParams
    exact List.length_map inputs2 _

/-- Claim C1 witness: the battle-test capability `pick(obj, keys)` with an input
mapping already using the canonical names is left untouched. -/
theorem normalizeStepParams_canonical_noop_witness :
    normalizeStepParams ["obj", "keys"] [("object", "obj")]
        [("obj", "employees0"), ("keys", "name,email,department")]
      = [("obj", "employees0"), ("keys", "name,email,department")] :=
  (normalizeStepParams_canonical_noop ["obj", "keys"] [("object", "obj")]
    [("obj", "employees0"), ("keys", "name,email,department")] (by decide)).1

/-- The filter predicate of the validator flags exactly the roots that are
neither declared nor the literal name `user`. -/
theorem refFlag_iff (declared : List String) (v : String) :
    ((!(declared.contains v) && v != "user") = true) ↔ (v ∉ declared ∧ v ≠ "user") := by
  simp

theorem vvrAux_eq_nil_iff (steps : List VStep) :
    ∀ declared idx, validateVariableReferencesAux declared idx steps = [] ↔
      ∀ i (h : i < steps.length), ∀ v ∈ (steps.get ⟨i, h⟩).refs,
        v ∈ declared ∨ v ∈ boundBefore steps i ∨ v = "user" := by
  induction steps with
  | nil =>
      intro declared idx
      simp [validateVariableReferencesAux]
  | cons step rest ih =>
      intro declared idx
      have hbb0 : boundBefore (step :: rest) 0 = [] := rfl
      have hbbS : ∀ j, boundBefore (step :: rest) (j + 1) =
          (match step.outputAs with
            | some o => o :: boundBefore rest j
            | none => boundBefore rest j) := by
        intro j
        cases hout : step.outputAs with
        | none => simp [boundBefore, List.take_succ_cons, List.filterMap_cons, hout]
        | some o => simp [boundBefore, List.take_succ_cons, List.filterMap_cons, hout]
      simp only [validateVariableReferencesAux, List.append_eq_nil]
      constructor
      · rintro ⟨h1, h2⟩
        have h1m : ∀ v ∈ step.refs, v ∈ declared ∨ v = "user" := by
          intro v hv
          have hnot := List.filter_eq_nil_iff.mp (List.map_eq_nil_iff.mp h1) v hv
          have := (not_iff_not.mpr (refFlag_iff declared v)).mp hnot
          tauto
        have h2m := (ih _ _).mp h2
        intro i h v hv
        match i with
        | 0 =>
            rcases h1m v hv with hh | hh
            · exact Or.inl hh
            · exact Or.inr (Or.inr hh)
        | j + 1 =>
            have hj : j < rest.length := Nat.lt_of_succ_lt_succ h
            have hrec := h2m j hj v hv
            rw [hbbS j]
            cases hout : step.outputAs with
            | none =>
                simp only [hout] at hrec ⊢
                exact hrec
            | some o =>
                simp only [hout] at hrec ⊢
                rcases hrec with hh | hh | hh
                · rcases List.mem_append.mp hh with hh2 | hh2
                  · exact Or.inl hh2
                  · exact Or.inr (Or.inl (List.mem_cons.mpr (Or.inl (List.mem_singleton.mp hh2))))
                · exact Or.inr (Or.inl (List.mem_cons.mpr (Or.inr hh)))
                · exact Or.inr (Or.inr hh)
      · intro hAll
        constructor
        · apply List.map_eq_nil_iff.mpr
          apply List.filter_eq_nil_iff.mpr
          intro v hv
          have := hAll 0 (Nat.succ_pos _) v hv
          rw [hbb0] at this
          intro hflag
          have hfl := (refFlag_iff declared v).mp hflag
          tauto
        · apply (ih _ _).mpr
          intro j hj v hv
          have := hAll (j + 1) (Nat.succ_lt_succ hj) v hv
          rw [hbbS j] at this
          cases hout : step.outputAs with
          | none =>
              simp only [hout] at this ⊢
              exact this
          | some o =>
              simp only [hout] at this ⊢
              rcases this with hh | hh | hh
              · exact Or.inl (List.mem_append.mpr (Or.inl hh))
              · rcases List.mem_cons.mp hh with hh2 | hh2
                · exact Or.inl (List.mem_append.mpr (Or.inr (List.mem_singleton.mpr hh2)))
                · exact Or.inr (Or.inl hh2)
              · exact Or.inr (Or.inr hh)

/-- Claim C3 (amended): the static pass reports no error exactly when every
interpolation root in every step is either an output name bound by a
strictly earlier step's `outputAs` or the literal name `user`; in
particular any other root — including `trigger` and `credential`, which
are not special-cased — is flagged as an undeclared reference, and any
root bound only by a later or non-existent step is flagged. -/
theorem validateVariableReferences_no_errors_iff (steps : List VStep) :
    validateVariableReferences steps = [] ↔
      ∀ i (h : i < steps.length), ∀ v ∈ (steps.get ⟨i, h⟩).refs,
        v ∈ boundBefore steps i ∨ v = "user" := by
  have h := vvrAux_eq_nil_iff steps [] 0
  simpa [validateVariableReferences] using h

/-- Claim C3 counterexample: a single step whose input references the trigger
payload root `trigger` is flagged as an undeclared reference, so the claim
that trigger-rooted expressions are accepted without error is false. -/
theorem trigger_rooted_reference_flagged :
    validateVariableReferences
        [{ id := "s1", refs := ["trigger"], outputAs := some ("out") }]
      = ["Step 1 (s1): References undeclared variable \"trigger\""] := by decide
